import Mathlib

/-!
Shallow embedding of the session / codec / todo-extraction core of the
`claude-code-gui` Tauri backend (`src/src-tauri/src/main.rs`).

Strings are modelled by Lean `String`; the scanning primitives the Rust code
uses (`str::contains`, `str::trim`, `str::replace`, `str::lines`,
`starts_with`, `to_lowercase`) are re-implemented structurally over the
underlying character list so that every definition kernel-reduces on concrete
input.  Rust `u32` values are modelled as `Nat` with an explicit `% 2 ^ 32`
where the code performs `u32` addition.  `serde_json` is an external library;
its output is modelled by the `Json` inductive and decoded values are passed
to the functions that consume them, exactly as the Rust code receives them
from `serde_json::from_str`.
-/

namespace ClaudeGui

/-! ### Character-list string primitives (kernel-computable) -/

/-- Whitespace test used by `trim` (the inputs handled here are ASCII). -/
def isWsChar (c : Char) : Bool :=
  c = ' ' || c = '\t' || c = '\n' || c = '\r'

/-- Model of Rust `str::trim`: drop leading and trailing whitespace. -/
def trimChars (cs : List Char) : List Char :=
  ((cs.dropWhile isWsChar).reverse.dropWhile isWsChar).reverse

/-- Model of Rust `str::trim` on `String`. -/
def trimS (s : String) : String := ⟨trimChars s.data⟩

/-- Substring test on character lists: some suffix starts with `pat`. -/
def containsList (pat : List Char) : List Char → Bool
  | [] => List.isPrefixOf pat []
  | c :: cs => List.isPrefixOf pat (c :: cs) || containsList pat cs

/-- Model of Rust `str::contains` (with a non-empty literal pattern). -/
def containsS (s pat : String) : Bool := containsList pat.data s.data

/-- Model of Rust `str::starts_with`. -/
def startsWithS (s pat : String) : Bool := List.isPrefixOf pat.data s.data

/-- Model of Rust `str::to_lowercase` (ASCII inputs). -/
def lowerS (s : String) : String := ⟨s.data.map Char.toLower⟩

/-- Remove every (left-to-right, non-overlapping) occurrence of `pat`,
the model of Rust `str::replace(pat, "")`.  `fuel` bounds the recursion;
it is initialised with the length of the scanned list, which suffices
because every step consumes at least one character. -/
def removeOccAux (pat : List Char) : Nat → List Char → List Char
  | 0, cs => cs
  | _ + 1, [] => []
  | fuel + 1, c :: cs =>
    if List.isPrefixOf pat (c :: cs) then
      removeOccAux pat fuel (List.drop (pat.length - 1) cs)
    else
      c :: removeOccAux pat fuel cs

/-- Model of Rust `str::replace(pat, "")` on `String`. -/
def removeOccS (s pat : String) : String :=
  ⟨removeOccAux pat.data s.data.length s.data⟩

/-- Split on a separator character; the model of Rust `str::lines`
(terminal output here is `\n`-separated; a trailing empty line is
irrelevant because every consumer trims and pattern-tests each line). -/
def splitOnChar (sep : Char) : List Char → List (List Char)
  | [] => [[]]
  | c :: cs =>
    match splitOnChar sep cs with
    | [] => if c = sep then [[], []] else [[c]]
    | line :: rest => if c = sep then [] :: (line :: rest) else (c :: line) :: rest

/-- Split a `String` into lines. -/
def linesS (s : String) : List String := (splitOnChar '\n' s.data).map (⟨·⟩)

/-- Model of Rust `path.split('/').last().unwrap_or(path)`. -/
def lastPathComponent (path : String) : String :=
  match (splitOnChar '/' path.data).getLast? with
  | some cs => ⟨cs⟩
  | none => path

/-- Number of UTF-8 bytes of a string, the model of Rust `String::len`. -/
def utf8Len (s : String) : Nat := s.data.foldl (fun n c => n + c.utf8Size) 0

/-! ### Todo data model and per-project persistence (`main.rs` lines 16-31, 2742-2972)

The persisted file `.claude-todos.json` is modelled by `StoredTodos`:
`bare` is the plain-JSON-array format, `wrapped` is the `ProjectTodos`
object format (a `todos` array plus a `last_updated` string), and
`malformed` stands for content that parses as neither.  A store value of
`none` models an absent file.  Timestamps (`chrono::Utc::now`) are passed
in as the `now` argument. -/

/-- `struct Todo` (main.rs lines 17-25). -/
structure Todo where
  id : String
  content : String
  status : String
  priority : String
  created_at : String
  session_id : Option String
deriving DecidableEq, Repr

/-- Shape of the persisted `.claude-todos.json` content.  `wrapped` is
`struct ProjectTodos` (main.rs lines 27-31). -/
inductive StoredTodos where
  | bare (todos : List Todo)
  | wrapped (todos : List Todo) (last_updated : String)
  | malformed
deriving DecidableEq, Repr

/-- The todo list held by a persisted value (whichever format). -/
def StoredTodos.todosOf : StoredTodos → List Todo
  | .bare ts => ts
  | .wrapped ts _ => ts
  | .malformed => []

/-- Whether a persisted value is in the wrapped `ProjectTodos` format. -/
def StoredTodos.isWrapped : StoredTodos → Bool
  | .wrapped _ _ => true
  | _ => false

/-- `save_todos_directly` (main.rs lines 2742-2783), as a transformation of
the persisted content.  The existing file is parsed as a plain `Vec<Todo>`
only (`serde_json::from_str::<Vec<Todo>>(..).unwrap_or_else(|_| Vec::new())`),
so wrapped or malformed prior content reads as the empty list; then, for
each incoming todo in order, entries with the same id are removed
(`retain`) and the todo is appended (`push`); the merged list is written
back as a plain JSON array. -/
def save_todos_directly (stored : Option StoredTodos) (todos : List Todo) : StoredTodos :=
  let all_todos : List Todo :=
    match stored with
    | some (.bare ts) => ts
    | _ => []
  .bare (todos.foldl
    (fun acc new_todo => acc.filter (fun existing => existing.id != new_todo.id) ++ [new_todo])
    all_todos)

/-- `save_project_todos` (main.rs lines 2907-2923): serialises the given
list wrapped in a `ProjectTodos` value with a fresh `last_updated`
timestamp and overwrites the file.  It never reads the prior content. -/
def save_project_todos (todos : List Todo) (now : String) : StoredTodos :=
  .wrapped todos now

/-- `load_project_todos` (main.rs lines 2855-2905), on the content of the
resolved todos file: an absent file yields `[]`; otherwise the content is
parsed as a plain `Vec<Todo>` first, then as a `ProjectTodos` object;
content in neither format is an error. -/
def load_project_todos (stored : Option StoredTodos) : Except String (List Todo) :=
  match stored with
  | none => .ok []
  | some (.bare ts) => .ok ts
  | some (.wrapped ts _) => .ok ts
  | some .malformed => .error "Failed to parse todos file in any known format"

/-- The `todos.iter_mut().find(|t| t.id == todo_id)` + `todo.status = new_status`
step of `update_todo_status`: replace the status of the first todo whose id
matches, leaving everything else unchanged. -/
def setStatusFirst : List Todo → String → String → List Todo
  | [], _, _ => []
  | t :: ts, todo_id, new_status =>
    if t.id == todo_id then { t with status := new_status } :: ts
    else t :: setStatusFirst ts todo_id new_status

/-- `update_todo_status` (main.rs lines 2949-2964) as a store transition:
load, mutate the first matching todo and save, or fail with
`"Todo not found"` leaving the store untouched. -/
def update_todo_status (stored : Option StoredTodos) (todo_id new_status now : String) :
    Except String Unit × Option StoredTodos :=
  match load_project_todos stored with
  | .error e => (.error e, stored)
  | .ok todos =>
    if todos.any (fun t => t.id == todo_id) then
      (.ok (), some (save_project_todos (setStatusFirst todos todo_id new_status) now))
    else
      (.error "Todo not found", stored)

/-- `delete_todo` (main.rs lines 2966-2972) as a store transition:
load, `retain(|t| t.id != todo_id)`, save. -/
def delete_todo (stored : Option StoredTodos) (todo_id now : String) :
    Except String Unit × Option StoredTodos :=
  match load_project_todos stored with
  | .error e => (.error e, stored)
  | .ok todos =>
    (.ok (), some (save_project_todos (todos.filter (fun t => t.id != todo_id)) now))

/-! ### Heuristic human-readable todo extraction (`main.rs` lines 2615-2692) -/

/-- One iteration of the line loop of `handle_human_readable_todos`
(main.rs lines 2643-2667): trim the line; if it carries the unchecked-box
glyph, strip the glyph and runs of five spaces, trim, and keep the result
as a new pending/medium todo when it is non-empty and longer than 10
bytes (Rust `content.len()` counts bytes); the accumulator carries the
todos collected so far and the ordinal counter. -/
def humanTodoStep (session_id now : String) (acc : List Todo × Nat)
    (rawLine : String) : List Todo × Nat :=
  let line := trimS rawLine
  if startsWithS line "☐ " || containsS line "☐ " then
    let content := trimS (removeOccS (removeOccS line "☐ ") "     ")
    if content != "" && utf8Len content > 10 then
      (acc.1 ++ [{ id := "human-" ++ session_id ++ "-" ++ Nat.repr acc.2,
                   content := content,
                   status := "pending",
                   priority := "medium",
                   created_at := now,
                   session_id := some session_id }],
       acc.2 + 1)
    else acc
  else acc

/-- The parsing core of `handle_human_readable_todos` (main.rs lines
2634-2667): gate on the literal section marker `"Update Todos"`, then run
the line loop `humanTodoStep` over the chunk's lines with the ordinal
counter starting at 1.  (The process-wide `LAST_PROCESSED_CONTENT`
duplicate-chunk memo and the persist/emit steps that follow are modelled
separately.) -/
def parse_human_readable_todos (session_id terminal_data now : String) : List Todo :=
  if !(containsS terminal_data "Update Todos") then []
  else ((linesS terminal_data).foldl (humanTodoStep session_id now) ([], 1)).1

/-! ### Event Codec (`main.rs` lines 83-145 and 1141-1369)

`serde_json` is external, so decoded values are modelled directly: a
generic JSON document by `Json`, and the typed envelope
`ClaudeJsonEvent` by a structure whose optional fields mirror the Rust
struct.  `parse_claude_json_event` receives the raw line together with
the envelope-decoding result for that line (`none` models a
`serde_json::from_str::<ClaudeJsonEvent>` failure), and a message's
`content` string is carried together with its own
`serde_json::from_str::<serde_json::Value>` result. -/

/-- Generic JSON value (`serde_json::Value`); numbers are modelled as
integers, which covers every payload the codec inspects. -/
inductive Json where
  | null
  | bool (b : Bool)
  | num (n : Int)
  | str (s : String)
  | arr (elems : List Json)
  | obj (fields : List (String × Json))

/-- `Value::get(key)` on an object (first binding wins). -/
def Json.get? : Json → String → Option Json
  | .obj fields, key => fields.lookup key
  | _, _ => none

/-- `Value::as_str`. -/
def Json.asStr? : Json → Option String
  | .str s => some s
  | _ => none

/-- `Value::as_array`. -/
def Json.asArr? : Json → Option (List Json)
  | .arr elems => some elems
  | _ => none

/-- `struct ClaudeUsage` (main.rs lines 141-145); the `u32` token counts
are modelled as `Nat` (decoded values are below `2 ^ 32`). -/
structure ClaudeUsage where
  input_tokens : Nat
  output_tokens : Nat
  total_tokens : Option Nat
deriving DecidableEq, Repr

/-- A message `content` string together with the result of
`serde_json::from_str::<serde_json::Value>` on it (`none` = parse failed). -/
structure ContentStr where
  raw : String
  parsed : Option Json

/-- `struct ClaudeMessage` (main.rs lines 124-139). -/
structure ClaudeMessage where
  id : Option String := none
  message_type : Option String := none
  role : String
  content : ContentStr
  model : Option String := none
  stop_reason : Option String := none
  usage : Option ClaudeUsage := none

/-- `struct ClaudeJsonEvent` (main.rs lines 110-122); the unused
`total_cost_usd : Option<f64>` field is omitted (floating point, never
read by the codec). -/
structure ClaudeJsonEvent where
  event_type : String
  subtype : Option String := none
  message : Option ClaudeMessage := none
  result : Option String := none
  session_id : Option String := none
  usage : Option ClaudeUsage := none
  duration_ms : Option Nat := none
  error : Option String := none

/-- `enum ClaudeStreamEvent` (main.rs lines 83-107).  `ContextStatus`
carries an `f32` percentage in the source; it is never produced by the
codec and its percentage is modelled as `Int` here. -/
inductive ClaudeStreamEvent where
  | status (message : String) (timestamp : Nat)
  | thinking (message : String) (timestamp : Nat)
  | tokenUsage (input output total : Nat) (timestamp : Nat)
  | contextStatus (percentage : Int) (remaining : String) (timestamp : Nat)
  | permissionRequest (id : String) (prompt : String) (options : List String) (timestamp : Nat)
  | response (content : String) (timestamp : Nat)
  | error (message : String) (timestamp : Nat)
  | complete (timestamp : Nat)
deriving DecidableEq, Repr

/-- The fixed three-option permission menu (main.rs lines 1180-1184). -/
def permissionOptions : List String :=
  ["1: Allow", "2: Allow and remember", "3: Deny"]

/-- The `assistant`-branch loop over decoded content blocks (main.rs lines
1202-1263): accumulate newline-joined text from `text` blocks and
human-readable tool-usage lines from `tool_use` blocks, with per-tool
enrichment for Glob/Grep/Read/Task/TodoWrite and a generic line for
other tools. -/
def processContentBlocks (items : List Json) : String × List String :=
  items.foldl
    (fun (acc : String × List String) item =>
      match (item.get? "type").bind Json.asStr? with
      | some "text" =>
        match (item.get? "text").bind Json.asStr? with
        | some text =>
          (if acc.1 == "" then text else acc.1 ++ "\n" ++ text, acc.2)
        | none => acc
      | some "tool_use" =>
        match (item.get? "name").bind Json.asStr?, item.get? "input" with
        | some name, some input =>
          let withTool := acc.2 ++ ["🔧 Using tool: " ++ name]
          let extra : List String :=
            if name == "Glob" then
              match (input.get? "pattern").bind Json.asStr? with
              | some pattern => ["   Searching for pattern: " ++ pattern]
              | none => []
            else if name == "Grep" then
              match (input.get? "pattern").bind Json.asStr? with
              | some pattern => ["   Searching for: " ++ pattern]
              | none => []
            else if name == "Read" then
              match (input.get? "file_path").bind Json.asStr? with
              | some path => ["   Reading file: " ++ lastPathComponent path]
              | none => []
            else if name == "Task" then
              match (input.get? "description").bind Json.asStr? with
              | some desc => ["   Task: " ++ desc]
              | none => []
            else if name == "TodoWrite" then
              match (input.get? "todos").bind Json.asArr? with
              | some todos_array =>
                ["📝 Updating todos (" ++ Nat.repr todos_array.length ++ " items)"]
              | none => []
            else
              ["   Executing " ++ name]
          (acc.1, withTool ++ extra)
        | _, _ => acc
      | _ => acc)
    ("", [])

/-- Newline-join, the model of `Vec::join("\n")`. -/
def joinNl : List String → String
  | [] => ""
  | [s] => s
  | s :: rest => s ++ "\n" ++ joinNl rest

/-- `parse_claude_json_event` (main.rs lines 1141-1369).  `line` is the raw
line, `decoded` the result of `serde_json::from_str::<ClaudeJsonEvent>` on
the trimmed line, and `timestamp` the millisecond clock reading taken at
decode time.  The `result`-branch side effect on the process-wide
`CURRENT_SESSION_ID` tracker (main.rs lines 1297-1302) is not part of the
returned value and is not modelled. -/
def parse_claude_json_event (line : String) (decoded : Option ClaudeJsonEvent)
    (timestamp : Nat) : Option ClaudeStreamEvent :=
  let trimmed := trimS line
  if trimmed == "" then none
  else
    match decoded with
    | some claude_event =>
      match claude_event.event_type with
      | "system" =>
        match claude_event.subtype with
        | some subtype =>
          match subtype with
          | "init" => some (.status "Claude Code initialized" timestamp)
          | "permission_request" =>
            let prompt :=
              match claude_event.message with
              | some msg => "Claude is requesting permission: " ++ msg.content.raw
              | none => "Claude is requesting permission to proceed"
            some (.permissionRequest ("perm_" ++ Nat.repr timestamp) prompt
              permissionOptions timestamp)
          | _ => some (.status ("System: " ++ subtype) timestamp)
        | none => none
      | "assistant" =>
        match claude_event.message with
        | some message =>
          match message.content.parsed with
          | some (.arr content_array) =>
            let (text_content, tool_usage) := processContentBlocks content_array
            if tool_usage != [] then
              some (.thinking (joinNl tool_usage) timestamp)
            else if text_content != "" then
              some (.response text_content timestamp)
            else
              -- falls through to the raw-content fallback (main.rs line 1284)
              some (.response message.content.raw timestamp)
          | _ =>
            -- content did not parse as a JSON array: raw-content fallback
            some (.response message.content.raw timestamp)
        | none => none
      | "user" => none
      | "result" =>
        match claude_event.subtype with
        | some subtype =>
          match subtype with
          | "success" =>
            match claude_event.usage with
            | some usage =>
              some (.tokenUsage usage.input_tokens usage.output_tokens
                ((usage.input_tokens + usage.output_tokens) % 2 ^ 32) timestamp)
            | none => some (.complete timestamp)
          | "error" =>
            some (.error (claude_event.error.getD "Unknown error") timestamp)
          | _ => some (.complete timestamp)
        | none => some (.complete timestamp)
      | _ => none
    | none =>
      if startsWithS trimmed "Claude requested permissions"
          || (containsS trimmed "permission"
              && (containsS trimmed "Allow" || containsS trimmed "Deny")) then
        some (.permissionRequest ("perm_" ++ Nat.repr timestamp)
          "Claude is requesting permission to access files or perform operations"
          permissionOptions timestamp)
      else
        let line_lower := lowerS trimmed
        if containsS line_lower "thinking" || containsS line_lower "processing" then
          some (.thinking trimmed timestamp)
        else if containsS line_lower "error" && containsS line_lower "failed" then
          some (.error trimmed timestamp)
        else
          none

/-! ### Session registry, orchestrator and Output Pump bookkeeping
(`main.rs` lines 33-48, 2097-2612)

The process-wide state is `TERMINAL_SESSIONS` (a map from session id to
`TerminalSession`) and `ACTIVE_OUTPUT_HANDLERS` (a set of session ids with
a reserved Output Pump slot).  Each Tauri command holds the relevant lock
across its critical section, so every operation below is one atomic step
on `CoreState`; the lifetime of the spawned pump tasks themselves is
tracked in the `pumps` field (ids of live pump tasks, with multiplicity),
and a pump terminating is the separate step `pump_exit`.  The pty, writer
and child handles are modelled by the observable parts the claims need:
the list of successfully written-and-flushed byte chunks and the
child-process liveness flag; `child_exit` models the external child
process terminating.  `get_real_project_path` (out-of-scope path
bookkeeping) is abstracted as the `resolved : Option String` argument. -/

/-- `struct TerminalSession` (main.rs lines 41-48): `writes` models the
data successfully written and flushed through `pty_writer`, `childAlive`
the `child_process` handle's not-yet-exited status
(`try_wait() = Ok(None)`). -/
structure TerminalSessionM where
  id : String
  project_path : String
  childAlive : Bool
  writes : List String
  active : Bool
deriving DecidableEq, Repr

/-- Association-list lookup modelling `HashMap::get`. -/
def lookupSession : List (String × TerminalSessionM) → String → Option TerminalSessionM
  | [], _ => none
  | (k, v) :: rest, id => if k == id then some v else lookupSession rest id

/-- `HashMap::remove`. -/
def removeSessionL (l : List (String × TerminalSessionM)) (id : String) :
    List (String × TerminalSessionM) :=
  l.filter (fun p => p.1 != id)

/-- `HashMap::insert`. -/
def insertSessionL (l : List (String × TerminalSessionM)) (id : String)
    (s : TerminalSessionM) : List (String × TerminalSessionM) :=
  (id, s) :: removeSessionL l id

/-- The process-wide mutable core state. -/
structure CoreState where
  sessions : List (String × TerminalSessionM)
  handlers : List String
  pumps : List String
deriving DecidableEq, Repr

/-- `verify_claude_health` (main.rs lines 2097-2120): true only when the
registry holds the id and the child process has not exited.  (In this
sequential model the `try_read`/`try_lock` acquisitions succeed; their
failure also returns `false` in the source.) -/
def verify_claude_health (st : CoreState) (session_id : String) : Bool :=
  match lookupSession st.sessions session_id with
  | some session => session.childAlive
  | none => false

/-- The typed outcomes of `write_to_terminal`; in the source both are
strings, `"Session <id> is not healthy or has exited"` (main.rs line 2351)
and `"Session <id> not found. Available sessions: .."` (main.rs line 2382). -/
inductive WriteFailure where
  | sessionUnhealthy
  | sessionNotFound
deriving DecidableEq, Repr

/-- `write_to_terminal` (main.rs lines 2345-2386): health-check first
(failing with the unhealthy error), then registry lookup (failing with the
not-found error), then `write_all` + `flush` on the session's writer.
The `WriteError` I/O failure of an otherwise healthy writer is not
modelled (the model's writer always accepts the bytes). -/
def write_to_terminal (st : CoreState) (session_id data : String) :
    Except WriteFailure CoreState :=
  if !verify_claude_health st session_id then
    .error .sessionUnhealthy
  else
    match lookupSession st.sessions session_id with
    | some session =>
      .ok { st with
        sessions := insertSessionL st.sessions session_id
          { session with writes := session.writes ++ [data] } }
    | none => .error .sessionNotFound

/-- The handler block shared by `start_claude_session` (main.rs lines
2187-2208) and `resume_claude_session` (main.rs lines 2319-2340): under
the single continuously-held `ACTIVE_OUTPUT_HANDLERS` write lock, check
membership, reserve the slot, and spawn the pump task
(`handle_pty_output_no_check`). -/
def spawnPumpIfAbsent (st : CoreState) (session_id : String) : CoreState :=
  if session_id ∈ st.handlers then st
  else { st with handlers := session_id :: st.handlers, pumps := session_id :: st.pumps }

/-- `start_claude_session` (main.rs lines 2122-2211): resolve the project
path, create the pty/child pair (modelled by a fresh healthy session
record), store it, and reserve-and-spawn the Output Pump.  `new_id` is the
fresh `Uuid::new_v4()` and `resolved` the `get_real_project_path` result. -/
def start_claude_session (st : CoreState) (new_id : String) (resolved : Option String) :
    Except String (String × CoreState) :=
  match resolved with
  | none => .error "Could not find real project path"
  | some working_dir =>
    let session : TerminalSessionM :=
      { id := new_id, project_path := working_dir, childAlive := true,
        writes := [], active := true }
    let st1 := { st with sessions := insertSessionL st.sessions new_id session }
    .ok (new_id, spawnPumpIfAbsent st1 new_id)

/-- `resume_claude_session` (main.rs lines 2213-2343).  Fast path: an
existing entry that passes the health check is returned unchanged before
any path resolution.  Otherwise the stale entry (if any) is torn down —
removed from the registry, its child killed, its handler slot released —
note the old pump task, if still alive, stays in `pumps` until its own
`pump_exit`; then a fresh pty/child pair is created with the resume flag
and the pump slot is reserved-and-spawned. -/
def resume_claude_session (st : CoreState) (session_id : String) (resolved : Option String) :
    Except String (String × CoreState) :=
  if (lookupSession st.sessions session_id).isSome && verify_claude_health st session_id then
    .ok (session_id, st)
  else
    let st1 :=
      match lookupSession st.sessions session_id with
      | some _ =>
        { st with sessions := removeSessionL st.sessions session_id,
                  handlers := st.handlers.erase session_id }
      | none => st
    match resolved with
    | none => .error "Could not find real project path"
    | some working_dir =>
      let session : TerminalSessionM :=
        { id := session_id, project_path := working_dir, childAlive := true,
          writes := [], active := true }
      let st2 := { st1 with sessions := insertSessionL st1.sessions session_id session }
      .ok (session_id, spawnPumpIfAbsent st2 session_id)

/-- A pump task terminating (EOF or read error in
`handle_pty_output_no_check`, main.rs lines 2539-2608): it removes its own
id from the active-handlers set and the task ends. -/
def pump_exit (st : CoreState) (session_id : String) : CoreState :=
  { st with handlers := st.handlers.erase session_id,
            pumps := st.pumps.erase session_id }

/-- The external child process of a session exiting (observed by the next
`try_wait`). -/
def child_exit (st : CoreState) (session_id : String) : CoreState :=
  match lookupSession st.sessions session_id with
  | some session =>
    let dead := { session with childAlive := false }
    { st with sessions := insertSessionL st.sessions session_id dead }
  | none => st

/-! ### Shared lemmas about the todo store -/

/-- The persist-and-merge law in the spec's words (spec-side definition,
kept for comparison with the code's persist functions): the stored list
after the persist is the previously stored list with every entry whose id
matches an incoming id removed, followed by the incoming entries. -/
def specMergeTodos (old incoming : List Todo) : List Todo :=
  old.filter (fun e => !(incoming.any (fun t => e.id == t.id))) ++ incoming

/-- The retain-then-push loop of `save_todos_directly` implements the
spec's merge law whenever the incoming ids are pairwise distinct. -/
theorem foldl_retain_push (incoming : List Todo)
    (hnd : (incoming.map Todo.id).Nodup) (old : List Todo) :
    incoming.foldl (fun acc t => acc.filter (fun e => e.id != t.id) ++ [t]) old
      = specMergeTodos old incoming := by
  induction incoming generalizing old with
  | nil =>
    simp [specMergeTodos]
  | cons t ts ih =>
    rw [List.map_cons, List.nodup_cons] at hnd
    have hts : ts.any (fun x => t.id == x.id) = false := by
      rw [List.any_eq_false]
      intro x hx h
      have ht : t.id = x.id := beq_iff_eq.mp h
      exact hnd.1 (ht ▸ List.mem_map_of_mem Todo.id hx)
    rw [List.foldl_cons, ih hnd.2, specMergeTodos, specMergeTodos,
      List.filter_append, List.append_assoc]
    congr 1
    · rw [List.filter_filter]
      apply List.filter_congr
      intro e _
      simp [Bool.not_or, Bool.and_comm, bne]
    · simp [hts]

/-- `setStatusFirst` replaces exactly the status of the matching todo when
ids are pairwise distinct: it equals the map that rewrites the matching
entry and keeps every other entry unchanged. -/
theorem setStatusFirst_eq_map (todos : List Todo) (tid ns : String)
    (hnd : (todos.map Todo.id).Nodup) :
    setStatusFirst todos tid ns
      = todos.map (fun t => if t.id == tid then { t with status := ns } else t) := by
  induction todos with
  | nil => rfl
  | cons t ts ih =>
    rw [List.map_cons, List.nodup_cons] at hnd
    simp only [setStatusFirst, List.map_cons]
    by_cases h : (t.id == tid) = true
    · rw [if_pos h, if_pos h]
      have htid : ∀ x ∈ ts, (x.id == tid) = false := by
        intro x hx
        rw [beq_eq_false_iff_ne]
        intro hxe
        have ht : t.id = tid := beq_iff_eq.mp h
        exact hnd.1 (ht.trans hxe.symm ▸ List.mem_map_of_mem Todo.id hx)
      congr 1
      symm
      calc ts.map (fun x => if x.id == tid then { x with status := ns } else x)
          = ts.map id := List.map_congr_left (fun x hx => by simp [htid x hx])
        _ = ts := List.map_id ts
    · rw [if_neg h, if_neg h, ih hnd.2]

/-! ### Claims about persistence (C1, C6, C9, C10) -/

/-- C1 counterexample: the structured TodoWrite path persists through
`save_project_todos`, which never reads the prior store — with a
previously stored todo of id `"a"` and an incoming todo of id `"b"`, the
stored list after the persist is just the incoming list, not the merge
the claim states (the non-colliding entry `"a"` is dropped). -/
theorem todowrite_persist_is_not_merge :
    (save_project_todos [⟨"b", "second", "pending", "medium", "t0", none⟩] "t1").todosOf
        = [⟨"b", "second", "pending", "medium", "t0", none⟩]
      ∧ [⟨"b", "second", "pending", "medium", "t0", none⟩]
        ≠ specMergeTodos [⟨"a", "first", "pending", "medium", "t0", none⟩]
            [⟨"b", "second", "pending", "medium", "t0", none⟩] := by
  constructor
  · rfl
  · decide

/-- C1 amended: only the heuristic path's `save_todos_directly` merges,
and it merges only against prior content in the bare-array format: for
incoming entries with pairwise-distinct ids, a bare-array prior store
`old` becomes the spec merge of `old` with the incoming list, while an
absent file or a wrapped-format prior store merges against the empty
list; the TodoWrite path's `save_project_todos` instead replaces the
stored list with the incoming entries wholesale. -/
theorem extraction_persist_merge (old incoming : List Todo) (lu now : String)
    (hnd : (incoming.map Todo.id).Nodup) :
    save_todos_directly (some (.bare old)) incoming
        = .bare (specMergeTodos old incoming)
      ∧ save_todos_directly none incoming = .bare incoming
      ∧ save_todos_directly (some (.wrapped old lu)) incoming = .bare incoming
      ∧ (save_project_todos incoming now).todosOf = incoming := by
  have hnil : incoming.foldl
      (fun acc t => acc.filter (fun e => e.id != t.id) ++ [t]) [] = incoming := by
    rw [foldl_retain_push incoming hnd [], specMergeTodos, List.filter_nil,
      List.nil_append]
  refine ⟨?_, ?_, ?_, rfl⟩
  · have hdef : save_todos_directly (some (.bare old)) incoming
        = .bare (incoming.foldl
            (fun acc t => acc.filter (fun e => e.id != t.id) ++ [t]) old) := rfl
    rw [hdef, foldl_retain_push incoming hnd old]
  · have hdef : save_todos_directly none incoming
        = .bare (incoming.foldl
            (fun acc t => acc.filter (fun e => e.id != t.id) ++ [t]) []) := rfl
    rw [hdef, hnil]
  · have hdef : save_todos_directly (some (.wrapped old lu)) incoming
        = .bare (incoming.foldl
            (fun acc t => acc.filter (fun e => e.id != t.id) ++ [t]) []) := rfl
    rw [hdef, hnil]

/-- C1 witness for `extraction_persist_merge`. -/
theorem extraction_persist_merge_witness :
    save_todos_directly
        (some (.bare [⟨"a", "first", "pending", "medium", "t0", none⟩,
                      ⟨"b", "second", "pending", "medium", "t0", none⟩]))
        [⟨"b", "newer", "in_progress", "high", "t1", some "s"⟩]
      = .bare [⟨"a", "first", "pending", "medium", "t0", none⟩,
               ⟨"b", "newer", "in_progress", "high", "t1", some "s"⟩] := by
  have h := extraction_persist_merge
    [⟨"a", "first", "pending", "medium", "t0", none⟩,
     ⟨"b", "second", "pending", "medium", "t0", none⟩]
    [⟨"b", "newer", "in_progress", "high", "t1", some "s"⟩]
    "lu" "t1" (by decide)
  rw [h.1]
  decide

/-- C6 counterexample: the heuristic extraction path's writer
`save_todos_directly` emits the bare JSON-array format, not the
wrapped-object format the claim says every write emits. -/
theorem save_todos_directly_emits_bare :
    save_todos_directly none [⟨"a", "first", "pending", "medium", "t0", none⟩]
        = .bare [⟨"a", "first", "pending", "medium", "t0", none⟩]
      ∧ (save_todos_directly none
          [⟨"a", "first", "pending", "medium", "t0", none⟩]).isWrapped = false := by
  constructor
  · rfl
  · decide

/-- C6 amended: the public save operation and the TodoWrite path
(`save_project_todos`) emit the wrapped-object format, but the heuristic
path's `save_todos_directly` emits a bare JSON array; the reader
`load_project_todos` accepts both formats and round-trips the list. -/
theorem todo_store_formats (todos : List Todo) (prior : Option StoredTodos)
    (lu now : String) :
    (save_project_todos todos now).isWrapped = true
      ∧ (save_todos_directly prior todos).isWrapped = false
      ∧ load_project_todos (some (.bare todos)) = .ok todos
      ∧ load_project_todos (some (.wrapped todos lu)) = .ok todos
      ∧ load_project_todos (some (save_project_todos todos now)) = .ok todos := by
  exact ⟨rfl, rfl, rfl, rfl, rfl⟩

/-- C9: `update_todo_status` is atomic on failure — when no stored todo
has the given id it returns the `"Todo not found"` error and leaves the
persisted store exactly as it was; when the id is present (ids being
pairwise distinct, the store invariant), it saves the list in which
exactly the matching todo's status is replaced and every other todo and
field is unchanged. -/
theorem update_todo_status_atomic (stored : Option StoredTodos) (todos : List Todo)
    (tid ns now : String)
    (hload : load_project_todos stored = .ok todos)
    (hnd : (todos.map Todo.id).Nodup) :
    (todos.any (fun t => t.id == tid) = false →
        update_todo_status stored tid ns now = (.error "Todo not found", stored))
      ∧ (todos.any (fun t => t.id == tid) = true →
        update_todo_status stored tid ns now
          = (.ok (), some (save_project_todos
              (todos.map (fun t => if t.id == tid then { t with status := ns } else t))
              now))) := by
  constructor
  · intro habs
    rw [update_todo_status, hload]
    simp [habs]
  · intro hpres
    rw [update_todo_status, hload]
    simp only [hpres, if_true]
    rw [setStatusFirst_eq_map todos tid ns hnd]

/-- C9 witness for `update_todo_status_atomic`, exercising both branches
on concrete stores. -/
theorem update_todo_status_atomic_witness :
    update_todo_status (some (.bare [⟨"a", "first", "pending", "medium", "t0", none⟩]))
        "zz" "completed" "t9"
      = (.error "Todo not found",
         some (.bare [⟨"a", "first", "pending", "medium", "t0", none⟩]))
    ∧ update_todo_status
        (some (.bare [⟨"a", "first", "pending", "medium", "t0", none⟩,
                      ⟨"b", "second", "pending", "high", "t0", none⟩]))
        "b" "completed" "t9"
      = (.ok (), some (.wrapped
          [⟨"a", "first", "pending", "medium", "t0", none⟩,
           ⟨"b", "second", "completed", "high", "t0", none⟩] "t9")) := by
  constructor
  · exact (update_todo_status_atomic
      (some (.bare [⟨"a", "first", "pending", "medium", "t0", none⟩]))
      [⟨"a", "first", "pending", "medium", "t0", none⟩]
      "zz" "completed" "t9" rfl (by decide)).1 (by decide)
  · have h := (update_todo_status_atomic
      (some (.bare [⟨"a", "first", "pending", "medium", "t0", none⟩,
                    ⟨"b", "second", "pending", "high", "t0", none⟩]))
      [⟨"a", "first", "pending", "medium", "t0", none⟩,
       ⟨"b", "second", "pending", "high", "t0", none⟩]
      "b" "completed" "t9" rfl (by decide)).2 (by decide)
    rw [h]
    rfl

/-- C10: `delete_todo` never fails on a missing id — on any loadable
store it succeeds and saves the prior list with every entry of the given
id removed; the remaining entries keep their relative order (the result
is a sublist of the prior list), and deleting an absent id leaves the
stored list unchanged. -/
theorem delete_todo_total (stored : Option StoredTodos) (todos : List Todo)
    (tid now : String)
    (hload : load_project_todos stored = .ok todos) :
    delete_todo stored tid now
        = (.ok (), some (save_project_todos (todos.filter (fun t => t.id != tid)) now))
      ∧ (todos.filter (fun t => t.id != tid)).Sublist todos
      ∧ (todos.any (fun t => t.id == tid) = false →
          todos.filter (fun t => t.id != tid) = todos) := by
  refine ⟨?_, List.filter_sublist todos, ?_⟩
  · rw [delete_todo, hload]
  · intro habs
    rw [List.any_eq_false] at habs
    apply List.filter_eq_self.mpr
    intro t ht
    simpa using habs t ht

/-- C10 witness for `delete_todo_total`, exercising both the present-id
and absent-id cases. -/
theorem delete_todo_total_witness :
    delete_todo (some (.bare [⟨"a", "first", "pending", "medium", "t0", none⟩,
                              ⟨"b", "second", "pending", "high", "t0", none⟩]))
        "a" "t9"
      = (.ok (), some (.wrapped [⟨"b", "second", "pending", "high", "t0", none⟩] "t9"))
    ∧ delete_todo (some (.bare [⟨"b", "second", "pending", "high", "t0", none⟩]))
        "zz" "t9"
      = (.ok (), some (.wrapped [⟨"b", "second", "pending", "high", "t0", none⟩] "t9")) := by
  constructor
  · have h := (delete_todo_total
      (some (.bare [⟨"a", "first", "pending", "medium", "t0", none⟩,
                    ⟨"b", "second", "pending", "high", "t0", none⟩]))
      [⟨"a", "first", "pending", "medium", "t0", none⟩,
       ⟨"b", "second", "pending", "high", "t0", none⟩] "a" "t9" rfl).1
    rw [h]
    rfl
  · have h := (delete_todo_total
      (some (.bare [⟨"b", "second", "pending", "high", "t0", none⟩]))
      [⟨"b", "second", "pending", "high", "t0", none⟩] "zz" "t9" rfl).1
    rw [h]
    rfl

/-! ### Claims about the session orchestrator (C2, C3, C8) -/

/-- C2 counterexample: on a state with no registry entry for the id, the
write fails with the unhealthy error, not the not-found error the claim
states — `write_to_terminal` health-checks before the lookup and
`verify_claude_health` returns false for an absent session. -/
theorem write_missing_session_is_unhealthy :
    write_to_terminal ⟨[], [], []⟩ "x" "hi" = .error .sessionUnhealthy
      ∧ write_to_terminal ⟨[], [], []⟩ "x" "hi" ≠ .error .sessionNotFound := by
  refine ⟨rfl, ?_⟩
  intro h
  rw [show write_to_terminal ⟨[], [], []⟩ "x" "hi"
      = Except.error WriteFailure.sessionUnhealthy from rfl] at h
  simp at h

/-- C2 amended: the write fails with `SessionUnhealthy` both when no
registry entry exists for the id and when the entry's child process has
exited (in both cases without attempting the write); when the entry
exists and is healthy it writes the bytes to the session's writer and
flushes.  The `SessionNotFound` branch of `write_to_terminal` is
unreachable in this sequential model, because the preceding health check
already fails for an absent session. -/
theorem write_requires_health (st : CoreState) (session_id data : String) :
    (lookupSession st.sessions session_id = none →
        write_to_terminal st session_id data = .error .sessionUnhealthy)
      ∧ (∀ s, lookupSession st.sessions session_id = some s → s.childAlive = false →
        write_to_terminal st session_id data = .error .sessionUnhealthy)
      ∧ (∀ s, lookupSession st.sessions session_id = some s → s.childAlive = true →
        write_to_terminal st session_id data
          = .ok { st with
              sessions := insertSessionL st.sessions session_id
                { s with writes := s.writes ++ [data] } })
      ∧ write_to_terminal st session_id data ≠ .error .sessionNotFound := by
  refine ⟨?_, ?_, ?_, ?_⟩
  · intro hnone
    simp [write_to_terminal, verify_claude_health, hnone]
  · intro s hs hdead
    simp [write_to_terminal, verify_claude_health, hs, hdead]
  · intro s hs halive
    simp [write_to_terminal, verify_claude_health, hs, halive]
  · intro h
    rw [write_to_terminal, verify_claude_health] at h
    cases hs : lookupSession st.sessions session_id with
    | none => simp [hs] at h
    | some s =>
      cases halive : s.childAlive with
      | false => simp [hs, halive] at h
      | true => simp [hs, halive] at h

/-- C2 witness for `write_requires_health`: on a healthy one-session
state the write succeeds and appends the bytes to the writer. -/
theorem write_requires_health_witness :
    write_to_terminal ⟨[("x", ⟨"x", "/p", true, [], true⟩)], ["x"], ["x"]⟩ "x" "hi"
      = .ok ⟨[("x", ⟨"x", "/p", true, ["hi"], true⟩)], ["x"], ["x"]⟩ := by
  have h := (write_requires_health
      ⟨[("x", ⟨"x", "/p", true, [], true⟩)], ["x"], ["x"]⟩ "x" "hi").2.2.1
    ⟨"x", "/p", true, [], true⟩ rfl rfl
  rw [h]
  rfl

/-- C3: `resume` is idempotent on a healthy session — the fast path
returns the same session id with the process-wide state completely
unchanged, so two immediate calls both return the id, no second Output
Pump task is spawned, and the active-handlers set keeps its exactly-one
entry for the id. -/
theorem resume_idempotent_on_healthy (st : CoreState) (session_id : String)
    (res1 res2 : Option String)
    (h : verify_claude_health st session_id = true) :
    resume_claude_session st session_id res1 = .ok (session_id, st)
      ∧ resume_claude_session st session_id res2 = .ok (session_id, st)
      ∧ (∀ st1, resume_claude_session st session_id res1 = .ok (session_id, st1) →
          st1.pumps = st.pumps
            ∧ st1.handlers.count session_id = st.handlers.count session_id) := by
  have hsome : (lookupSession st.sessions session_id).isSome = true := by
    rw [verify_claude_health] at h
    cases hl : lookupSession st.sessions session_id with
    | none => rw [hl] at h; exact absurd h (by simp)
    | some s => rfl
  have hfast : ∀ res : Option String,
      resume_claude_session st session_id res = .ok (session_id, st) := by
    intro res
    rw [resume_claude_session, hsome, h]
    rfl
  refine ⟨hfast res1, hfast res2, ?_⟩
  intro st1 h1
  rw [hfast res1] at h1
  cases h1
  exact ⟨rfl, rfl⟩

/-- C3 witness for `resume_idempotent_on_healthy` on a concrete healthy
one-session state. -/
theorem resume_idempotent_witness :
    resume_claude_session ⟨[("s", ⟨"s", "/p", true, [], true⟩)], ["s"], ["s"]⟩
        "s" (some "/p")
      = .ok ("s", ⟨[("s", ⟨"s", "/p", true, [], true⟩)], ["s"], ["s"]⟩)
    ∧ resume_claude_session ⟨[("s", ⟨"s", "/p", true, [], true⟩)], ["s"], ["s"]⟩
        "s" (some "/q")
      = .ok ("s", ⟨[("s", ⟨"s", "/p", true, [], true⟩)], ["s"], ["s"]⟩)
    ∧ (⟨[("s", ⟨"s", "/p", true, [], true⟩)], ["s"], ["s"]⟩ : CoreState).handlers.count "s"
      = 1 := by
  have h := resume_idempotent_on_healthy
    ⟨[("s", ⟨"s", "/p", true, [], true⟩)], ["s"], ["s"]⟩ "s"
    (some "/p") (some "/q") rfl
  exact ⟨h.1, h.2.1, rfl⟩

/-- C8 counterexample: two Output Pump tasks can exist concurrently for
one id.  Reachable trace: `start` spawns the pump for `"s"`; the child
process exits; `resume` takes the teardown path, which releases the
handler slot while the old pump task is still alive (it only dies at its
own `pump_exit`, after observing EOF), and then reserves-and-spawns a
second pump — after which the live-pump multiset holds `"s"` twice. -/
theorem duplicate_pump_after_teardown :
    start_claude_session ⟨[], [], []⟩ "s" (some "/p")
        = .ok ("s", ⟨[("s", ⟨"s", "/p", true, [], true⟩)], ["s"], ["s"]⟩)
      ∧ (resume_claude_session
            (child_exit ⟨[("s", ⟨"s", "/p", true, [], true⟩)], ["s"], ["s"]⟩ "s")
            "s" (some "/p")).map (fun r => r.2.pumps.count "s")
        = .ok 2 :=
  ⟨rfl, rfl⟩

/-- C8 amended: the check of the active-handlers set and the reservation
of the pump slot do happen under a single continuously-held write lock in
both `start` and `resume`, so a duplicate start request for an id whose
slot is already reserved spawns no second pump task, and a resume of a
healthy session changes nothing; but at-most-one-pump-per-id is only
transient-safe: `resume` of an unhealthy session releases the slot before
the old pump task has exited and spawns exactly one new pump, so until
the old pump's own exit two pumps coexist for the id, and the old pump's
exit restores the previous pump multiset. -/
theorem pump_slot_reservation (st : CoreState) (session_id working_dir : String)
    (hnd : st.handlers.Nodup) :
    (session_id ∈ st.handlers →
        ∀ r st1, start_claude_session st session_id (some working_dir) = .ok (r, st1) →
          st1.pumps = st.pumps)
      ∧ (verify_claude_health st session_id = true →
          resume_claude_session st session_id (some working_dir) = .ok (session_id, st))
      ∧ (∀ s, lookupSession st.sessions session_id = some s → s.childAlive = false →
          ∀ r st1,
            resume_claude_session st session_id (some working_dir) = .ok (r, st1) →
              st1.pumps = session_id :: st.pumps
                ∧ (pump_exit st1 session_id).pumps = st.pumps) := by
  refine ⟨?_, ?_, ?_⟩
  · intro hmem r st1 h1
    rw [start_claude_session] at h1
    rw [spawnPumpIfAbsent, if_pos hmem] at h1
    cases h1
    rfl
  · intro hh
    have hsome : (lookupSession st.sessions session_id).isSome = true := by
      rw [verify_claude_health] at hh
      cases hl : lookupSession st.sessions session_id with
      | none => rw [hl] at hh; exact absurd hh (by simp)
      | some s => rfl
    rw [resume_claude_session, hsome, hh]
    rfl
  · intro s hs hdead r st1 h1
    have hcond : ((lookupSession st.sessions session_id).isSome
        && verify_claude_health st session_id) = false := by
      rw [verify_claude_health, hs]
      simp [hdead]
    rw [resume_claude_session, hcond] at h1
    simp only [Bool.false_eq_true, if_false, hs] at h1
    rw [spawnPumpIfAbsent] at h1
    have hout : session_id ∉ st.handlers.erase session_id := by
      intro hmem
      exact ((hnd.mem_erase_iff).mp hmem).1 rfl
    rw [if_neg hout] at h1
    cases h1
    exact ⟨rfl, List.erase_cons_head session_id st.pumps⟩

/-- C8 witness for `pump_slot_reservation`: a duplicate start request on
a state whose slot for `"s"` is already reserved leaves the live-pump
multiset unchanged. -/
theorem pump_slot_reservation_witness :
    (start_claude_session ⟨[("s", ⟨"s", "/p", true, [], true⟩)], ["s"], ["s"]⟩
        "s" (some "/p")).map (fun r => r.2.pumps)
      = .ok ["s"] := by
  have h := (pump_slot_reservation
      ⟨[("s", ⟨"s", "/p", true, [], true⟩)], ["s"], ["s"]⟩ "s" "/p"
      (by decide)).1 (by decide)
    "s" ⟨[("s", ⟨"s", "/p", true, [], true⟩)], ["s"], ["s"]⟩ rfl
  rw [show start_claude_session ⟨[("s", ⟨"s", "/p", true, [], true⟩)], ["s"], ["s"]⟩
      "s" (some "/p")
    = .ok ("s", ⟨[("s", ⟨"s", "/p", true, [], true⟩)], ["s"], ["s"]⟩) from rfl]
  rw [Except.map, h]

/-! ### Claims about the Event Codec and the heuristic extractor (C4, C5, C7) -/

/-- C4: for every line that decodes as a structured event of type
`result` with subtype `success` and a usage payload, the codec emits
exactly one TokenUsage event whose total equals the sum of its input and
output fields (the `u32` sum not overflowing, which real token counts
never do). -/
theorem token_usage_total (line : String) (ev : ClaudeJsonEvent) (u : ClaudeUsage)
    (ts : Nat)
    (hline : (trimS line == "") = false)
    (htype : ev.event_type = "result")
    (hsub : ev.subtype = some "success")
    (husage : ev.usage = some u)
    (hsum : u.input_tokens + u.output_tokens < 2 ^ 32) :
    parse_claude_json_event line (some ev) ts
      = some (.tokenUsage u.input_tokens u.output_tokens
          (u.input_tokens + u.output_tokens) ts) := by
  simp only [parse_claude_json_event, hline, htype, hsub, husage]
  simp [Nat.mod_eq_of_lt hsum]
  norm_num at hsum
  exact hsum

/-- C4 witness for `token_usage_total` at a concrete decoded event. -/
theorem token_usage_total_witness :
    parse_claude_json_event "result-line"
        (some { event_type := "result", subtype := some "success",
                usage := some ⟨3, 5, none⟩ })
        9
      = some (.tokenUsage 3 5 8 9) := by
  exact token_usage_total "result-line"
    { event_type := "result", subtype := some "success", usage := some ⟨3, 5, none⟩ }
    ⟨3, 5, none⟩ 9 rfl rfl rfl rfl (by norm_num)

/-- C5: on an `assistant` event whose message content parses as the
expected array but contains no text blocks and no tool_use blocks (here
the empty array), the codec does not stay silent — it falls through to
the raw-content fallback and emits a Response carrying the raw content
string, although the source's own comment reserves that fallback for
content that failed to parse.  The claim states no event is emitted. -/
theorem assistant_empty_content_emits_raw_response :
    parse_claude_json_event "assistant-content-line"
        (some { event_type := "assistant",
                message := some { role := "assistant",
                                  content := ⟨"[]", some (.arr [])⟩ } })
        0
      = some (.response "[]" 0) := rfl

/-! #### String-scanning lemmas for the heuristic extractor -/

/-- A prefix occurrence is an occurrence. -/
theorem containsList_of_isPrefixOf {pat cs : List Char}
    (h : List.isPrefixOf pat cs = true) : containsList pat cs = true := by
  cases cs with
  | nil => simpa [containsList] using h
  | cons c cs => simp [containsList, h]

/-- Containment is preserved by appending on the right. -/
theorem containsList_append_right {pat as : List Char} (bs : List Char)
    (h : containsList pat as = true) : containsList pat (as ++ bs) = true := by
  induction as with
  | nil =>
    have hpat : pat = [] := by
      cases pat with
      | nil => rfl
      | cons p ps => simp [containsList, List.isPrefixOf] at h
    subst hpat
    cases bs with
    | nil => simp [containsList, List.isPrefixOf]
    | cons b bs => simp [containsList, List.isPrefixOf]
  | cons a as ih =>
    rw [containsList] at h
    rcases (Bool.or_eq_true _ _).mp h with hp | hc
    · have h1 : pat <+: (a :: as) := List.isPrefixOf_iff_prefix.mp hp
      have h2 : pat <+: (a :: as) ++ bs := h1.trans (List.prefix_append _ _)
      have h3 : List.isPrefixOf pat (a :: (as ++ bs)) = true :=
        List.isPrefixOf_iff_prefix.mpr (by rwa [List.cons_append] at h2)
      rw [List.cons_append, containsList, h3, Bool.true_or]
    · rw [List.cons_append, containsList, ih hc, Bool.or_true]

/-- `splitOnChar` never returns the empty list of lines. -/
theorem splitOnChar_ne_nil (sep : Char) (cs : List Char) : splitOnChar sep cs ≠ [] := by
  induction cs with
  | nil => simp [splitOnChar]
  | cons c cs ih =>
    rw [splitOnChar]
    cases h : splitOnChar sep cs with
    | nil => exact absurd h ih
    | cons line rest =>
      by_cases hc : c = sep <;> simp [hc]

/-- A separator-free list is one single line. -/
theorem splitOnChar_no_sep {sep : Char} {cs : List Char} (h : sep ∉ cs) :
    splitOnChar sep cs = [cs] := by
  induction cs with
  | nil => rfl
  | cons c cs ih =>
    have hc : c ≠ sep := fun he => h (he ▸ List.mem_cons_self c cs)
    have hcs : sep ∉ cs := fun hm => h (List.mem_cons_of_mem c hm)
    rw [splitOnChar, ih hcs]
    simp [hc]

/-- Splitting peels off a separator-free first segment. -/
theorem splitOnChar_append_sep {sep : Char} {as : List Char} (bs : List Char)
    (h : sep ∉ as) :
    splitOnChar sep (as ++ sep :: bs) = as :: splitOnChar sep bs := by
  induction as with
  | nil =>
    rw [List.nil_append, splitOnChar]
    cases hb : splitOnChar sep bs with
    | nil => exact absurd hb (splitOnChar_ne_nil sep bs)
    | cons line rest => simp
  | cons a as ih =>
    have ha : a ≠ sep := fun he => h (he ▸ List.mem_cons_self a as)
    have has : sep ∉ as := fun hm => h (List.mem_cons_of_mem a hm)
    rw [List.cons_append, splitOnChar, ih has]
    simp [ha]

/-- `dropWhile` can only shorten a list. -/
theorem dropWhile_len_le (p : Char → Bool) (l : List Char) :
    (l.dropWhile p).length ≤ l.length := by
  induction l with
  | nil => exact Nat.le_refl _
  | cons c cs ih =>
    rw [List.dropWhile_cons]
    by_cases hp : p c = true
    · rw [if_pos hp]
      exact Nat.le_succ_of_le ih
    · rw [if_neg hp]

/-- A `dropWhile` that keeps the length drops nothing. -/
theorem dropWhile_eq_self_of_length {p : Char → Bool} {l : List Char}
    (h : (l.dropWhile p).length = l.length) : l.dropWhile p = l := by
  induction l with
  | nil => rfl
  | cons c cs ih =>
    rw [List.dropWhile_cons] at h ⊢
    by_cases hp : p c = true
    · rw [if_pos hp] at h ⊢
      have := dropWhile_len_le p cs
      simp at h
      omega
    · rw [if_neg hp] at h ⊢

/-- `dropWhile` skips over a block that satisfies the predicate. -/
theorem dropWhile_append_of_all {p : Char → Bool} {l : List Char} (m : List Char)
    (h : l.all p = true) : (l ++ m).dropWhile p = m.dropWhile p := by
  induction l with
  | nil => rfl
  | cons c cs ih =>
    rw [List.all_cons, Bool.and_eq_true] at h
    rw [List.cons_append, List.dropWhile_cons, if_pos h.1, ih h.2]

/-- If `dropWhile` drops nothing from a non-empty list, its head fails
the predicate. -/
theorem head_not_of_dropWhile_self {p : Char → Bool} {x : Char} {xs : List Char}
    (h : (x :: xs).dropWhile p = x :: xs) : p x = false := by
  by_cases hp : p x = true
  · rw [List.dropWhile_cons, if_pos hp] at h
    have := dropWhile_len_le p xs
    have hlen := congrArg List.length h
    simp at hlen
    omega
  · simpa using hp

/-- `dropWhile` keeps an appendage behind a kept non-empty block. -/
theorem dropWhile_append_self {p : Char → Bool} {l : List Char} (m : List Char)
    (hl : l.dropWhile p = l) (hne : l ≠ []) : (l ++ m).dropWhile p = l ++ m := by
  cases l with
  | nil => exact absurd rfl hne
  | cons x xs =>
    have hx := head_not_of_dropWhile_self hl
    rw [List.cons_append, List.dropWhile_cons, if_neg (by simp [hx])]

/-- A trim-fixed string has whitespace-free front and back. -/
theorem trim_fixed {c : String} (h : trimS c = c) :
    c.data.dropWhile isWsChar = c.data
      ∧ c.data.reverse.dropWhile isWsChar = c.data.reverse := by
  have hd : trimChars c.data = c.data := congrArg String.data h
  rw [trimChars] at hd
  have hlen1 : (c.data.dropWhile isWsChar).length ≤ c.data.length :=
    dropWhile_len_le _ _
  have hlen2 : ((c.data.dropWhile isWsChar).reverse.dropWhile isWsChar).length
      ≤ (c.data.dropWhile isWsChar).length := by
    have := dropWhile_len_le isWsChar (c.data.dropWhile isWsChar).reverse
    simpa using this
  have hlen0 := congrArg List.length hd
  simp only [List.length_reverse] at hlen0
  have e1 : (c.data.dropWhile isWsChar).length = c.data.length := by omega
  have hfront : c.data.dropWhile isWsChar = c.data := dropWhile_eq_self_of_length e1
  rw [hfront] at hd
  have hback : c.data.reverse.dropWhile isWsChar = c.data.reverse := by
    have h2 := congrArg List.reverse hd
    simpa [List.reverse_reverse] using h2
  exact ⟨hfront, hback⟩

/-- `removeOccAux` is the identity on occurrence-free input, for every
fuel value. -/
theorem removeOccAux_of_not_contains {pat cs : List Char}
    (h : containsList pat cs = false) : ∀ fuel, removeOccAux pat fuel cs = cs := by
  induction cs with
  | nil => intro fuel; cases fuel <;> rfl
  | cons c cs ih =>
    intro fuel
    rw [containsList, Bool.or_eq_false_iff] at h
    cases fuel with
    | zero => rfl
    | succ f =>
      rw [removeOccAux, if_neg (by simp [h.1]), ih h.2 f]

/-- `removeOccAux` strips one leading occurrence of the pattern and
leaves an occurrence-free remainder untouched. -/
theorem removeOccAux_strip {p : Char} {ps cs : List Char}
    (h : containsList (p :: ps) cs = false) (fuel : Nat) :
    removeOccAux (p :: ps) (fuel + 1) ((p :: ps) ++ cs) = cs := by
  rw [List.cons_append, removeOccAux]
  have hpre : List.isPrefixOf (p :: ps) (p :: (ps ++ cs)) = true :=
    List.isPrefixOf_iff_prefix.mpr (by rw [← List.cons_append]; exact List.prefix_append _ _)
  rw [if_pos (by simp [hpre])]
  have hl : (p :: ps).length - 1 = ps.length := by simp
  rw [hl, List.drop_left, removeOccAux_of_not_contains h fuel]

/-- Rust `replace(pat, "")` is the identity when the pattern is absent. -/
theorem removeOccS_of_not_contains {s pat : String} (h : containsS s pat = false) :
    removeOccS s pat = s := by
  rw [removeOccS, removeOccAux_of_not_contains h]

/-- Stripping the box glyph from `"☐ " ++ c` yields `c` when `c` itself
is glyph-free. -/
theorem removeOccS_strip (c : String) (hc : containsS c "☐ " = false) :
    removeOccS ("☐ " ++ c) "☐ " = c := by
  show (⟨removeOccAux ('☐' :: [' ']) (c.data.length + 1 + 1)
    (('☐' :: [' ']) ++ c.data)⟩ : String) = c
  rw [removeOccAux_strip hc (c.data.length + 1)]

/-- A non-empty string has non-empty character data. -/
theorem data_ne_nil_of_ne_empty {c : String} (h : c ≠ "") : c.data ≠ [] := by
  intro hd
  apply h
  cases c
  simp_all

/-- Trimming a glyph line `whitespace ++ "☐ " ++ content` (content
trimmed and non-empty) leaves `"☐ " ++ content`. -/
theorem trim_glyph_line (wsp c : String)
    (hw : wsp.data.all isWsChar = true)
    (hc0 : c ≠ "") (hct : trimS c = c) :
    trimS (wsp ++ "☐ " ++ c) = "☐ " ++ c := by
  obtain ⟨hfront, hback⟩ := trim_fixed hct
  show (⟨trimChars ((wsp.data ++ ['☐', ' ']) ++ c.data)⟩ : String) = ⟨'☐' :: ' ' :: c.data⟩
  rw [List.append_assoc]
  rw [trimChars, dropWhile_append_of_all _ hw]
  rw [show (['☐', ' '] ++ c.data : List Char) = '☐' :: (' ' :: c.data) from rfl]
  rw [List.dropWhile_cons, if_neg (by decide)]
  rw [show ('☐' :: ' ' :: c.data).reverse = c.data.reverse ++ [' ', '☐'] by simp]
  rw [dropWhile_append_self _ hback
    (by simp [List.reverse_eq_nil_iff]; exact data_ne_nil_of_ne_empty hc0)]
  simp

/-- A line whose trimmed form carries no box glyph leaves the loop
accumulator unchanged. -/
theorem step_skip (sid now : String) (acc : List Todo × Nat) (line : String)
    (h : containsS (trimS line) "☐ " = false) :
    humanTodoStep sid now acc line = acc := by
  have hsw : startsWithS (trimS line) "☐ " = false := by
    cases hp : startsWithS (trimS line) "☐ "
    · rfl
    · rw [startsWithS] at hp
      rw [containsS, containsList_of_isPrefixOf hp] at h
      cases h
  simp [humanTodoStep, hsw, h]

/-- A glyph line `whitespace ++ "☐ " ++ content` with clean content
(trimmed, non-empty, free of the glyph-space and five-space patterns)
contributes one pending/medium todo when the content exceeds 10 bytes,
and nothing otherwise. -/
theorem step_glyph (sid now : String) (acc : List Todo × Nat) (wsp c : String)
    (hw : wsp.data.all isWsChar = true)
    (hc0 : c ≠ "") (hct : trimS c = c)
    (hcg : containsS c "☐ " = false) (hc5 : containsS c "     " = false) :
    humanTodoStep sid now acc (wsp ++ "☐ " ++ c)
      = if utf8Len c > 10 then
          (acc.1 ++ [{ id := "human-" ++ sid ++ "-" ++ Nat.repr acc.2,
                       content := c, status := "pending", priority := "medium",
                       created_at := now, session_id := some sid }],
           acc.2 + 1)
        else acc := by
  rw [humanTodoStep]
  rw [trim_glyph_line wsp c hw hc0 hct]
  have hstart : startsWithS ("☐ " ++ c) "☐ " = true := by
    rw [startsWithS]
    exact List.isPrefixOf_iff_prefix.mpr (List.prefix_append _ _)
  rw [hstart, Bool.true_or, if_pos rfl]
  rw [removeOccS_strip c hcg, removeOccS_of_not_contains hc5, hct]
  have hne : (c != "") = true := by
    simp [bne]
    exact hc0
  simp only [hne, Bool.true_and]
  by_cases hlen : utf8Len c > 10
  · simp [hlen]
  · simp [hlen]

/-- A three-line chunk splits into its three newline-free lines. -/
theorem linesS_three (a b c : String)
    (ha : '\n' ∉ a.data) (hb : '\n' ∉ b.data) (hc : '\n' ∉ c.data) :
    linesS (a ++ "\n" ++ b ++ "\n" ++ c) = [a, b, c] := by
  rw [linesS]
  have hd : (a ++ "\n" ++ b ++ "\n" ++ c).data
      = a.data ++ '\n' :: (b.data ++ '\n' :: c.data) := by
    simp [String.data_append]
  rw [hd, splitOnChar_append_sep _ ha, splitOnChar_append_sep _ hb,
    splitOnChar_no_sep hc]
  rfl

/-- A two-line chunk splits into its two newline-free lines. -/
theorem linesS_two (a b : String) (ha : '\n' ∉ a.data) (hb : '\n' ∉ b.data) :
    linesS (a ++ "\n" ++ b) = [a, b] := by
  rw [linesS]
  have hd : (a ++ "\n" ++ b).data = a.data ++ '\n' :: b.data := by
    simp [String.data_append]
  rw [hd, splitOnChar_append_sep _ ha, splitOnChar_no_sep hb]
  rfl

/-- The two-glyph-line extraction law, for every session id, marker line
and pair of clean contents over 10 bytes. -/
theorem human_general (sid now marker wsp1 wsp2 c1 c2 : String)
    (hm : containsS marker "Update Todos" = true)
    (hmg : containsS (trimS marker) "☐ " = false)
    (hmn : '\n' ∉ marker.data)
    (hw1 : wsp1.data.all isWsChar = true) (hn1 : '\n' ∉ wsp1.data)
    (hw2 : wsp2.data.all isWsChar = true) (hn2 : '\n' ∉ wsp2.data)
    (he1 : c1 ≠ "") (ht1 : trimS c1 = c1) (hg1 : containsS c1 "☐ " = false)
    (h51 : containsS c1 "     " = false) (hb1 : '\n' ∉ c1.data)
    (hlen1 : utf8Len c1 > 10)
    (he2 : c2 ≠ "") (ht2 : trimS c2 = c2) (hg2 : containsS c2 "☐ " = false)
    (h52 : containsS c2 "     " = false) (hb2 : '\n' ∉ c2.data)
    (hlen2 : utf8Len c2 > 10) :
    parse_human_readable_todos sid
        (marker ++ "\n" ++ (wsp1 ++ "☐ " ++ c1) ++ "\n" ++ (wsp2 ++ "☐ " ++ c2)) now
      = [{ id := "human-" ++ sid ++ "-" ++ Nat.repr 1, content := c1,
           status := "pending", priority := "medium", created_at := now,
           session_id := some sid },
         { id := "human-" ++ sid ++ "-" ++ Nat.repr 2, content := c2,
           status := "pending", priority := "medium", created_at := now,
           session_id := some sid }] := by
  have hgate : containsS
      (marker ++ "\n" ++ (wsp1 ++ "☐ " ++ c1) ++ "\n" ++ (wsp2 ++ "☐ " ++ c2))
      "Update Todos" = true := by
    rw [containsS]
    have hd : (marker ++ "\n" ++ (wsp1 ++ "☐ " ++ c1) ++ "\n" ++ (wsp2 ++ "☐ " ++ c2)).data
        = marker.data
            ++ ('\n' :: ((wsp1 ++ "☐ " ++ c1).data ++ '\n' :: (wsp2 ++ "☐ " ++ c2).data)) := by
      simp [String.data_append]
    rw [hd]
    exact containsList_append_right _ hm
  have hl1 : '\n' ∉ (wsp1 ++ "☐ " ++ c1).data := by
    intro hmem
    rw [show (wsp1 ++ "☐ " ++ c1).data = (wsp1.data ++ ['☐', ' ']) ++ c1.data from by
      simp [String.data_append]] at hmem
    rcases List.mem_append.mp hmem with h | h
    · rcases List.mem_append.mp h with h | h
      · exact hn1 h
      · simp at h
    · exact hb1 h
  have hl2 : '\n' ∉ (wsp2 ++ "☐ " ++ c2).data := by
    intro hmem
    rw [show (wsp2 ++ "☐ " ++ c2).data = (wsp2.data ++ ['☐', ' ']) ++ c2.data from by
      simp [String.data_append]] at hmem
    rcases List.mem_append.mp hmem with h | h
    · rcases List.mem_append.mp h with h | h
      · exact hn2 h
      · simp at h
    · exact hb2 h
  rw [parse_human_readable_todos, hgate]
  rw [linesS_three marker (wsp1 ++ "☐ " ++ c1) (wsp2 ++ "☐ " ++ c2) hmn hl1 hl2]
  rw [List.foldl_cons, step_skip sid now ([], 1) marker hmg]
  rw [List.foldl_cons, step_glyph sid now ([], 1) wsp1 c1 hw1 he1 ht1 hg1 h51]
  rw [if_pos hlen1]
  rw [List.foldl_cons, step_glyph sid now _ wsp2 c2 hw2 he2 ht2 hg2 h52]
  rw [if_pos hlen2]
  rw [List.foldl_nil]
  simp

/-- The short-content law: a glyph line whose clean content is at most 10
bytes contributes no record. -/
theorem human_short (sid now marker wsp c : String)
    (hm : containsS marker "Update Todos" = true)
    (hmg : containsS (trimS marker) "☐ " = false)
    (hmn : '\n' ∉ marker.data)
    (hw : wsp.data.all isWsChar = true) (hn : '\n' ∉ wsp.data)
    (he : c ≠ "") (ht : trimS c = c) (hg : containsS c "☐ " = false)
    (h5 : containsS c "     " = false) (hb : '\n' ∉ c.data)
    (hlen : utf8Len c ≤ 10) :
    parse_human_readable_todos sid (marker ++ "\n" ++ (wsp ++ "☐ " ++ c)) now = [] := by
  have hgate : containsS (marker ++ "\n" ++ (wsp ++ "☐ " ++ c)) "Update Todos" = true := by
    rw [containsS]
    rw [show (marker ++ "\n" ++ (wsp ++ "☐ " ++ c)).data
        = marker.data ++ ('\n' :: (wsp ++ "☐ " ++ c).data) from by simp [String.data_append]]
    exact containsList_append_right _ hm
  have hl : '\n' ∉ (wsp ++ "☐ " ++ c).data := by
    intro hmem
    rw [show (wsp ++ "☐ " ++ c).data = (wsp.data ++ ['☐', ' ']) ++ c.data from by
      simp [String.data_append]] at hmem
    rcases List.mem_append.mp hmem with h | h
    · rcases List.mem_append.mp h with h | h
      · exact hn h
      · simp at h
    · exact hb h
  rw [parse_human_readable_todos, hgate]
  rw [linesS_two marker (wsp ++ "☐ " ++ c) hmn hl]
  rw [List.foldl_cons, step_skip sid now ([], 1) marker hmg]
  rw [List.foldl_cons, step_glyph sid now ([], 1) wsp c hw he ht hg h5]
  rw [if_neg (Nat.not_lt.mpr hlen), List.foldl_nil]
  simp

/-- C7 counterexample: the length threshold at main.rs line 2654 counts
UTF-8 bytes (`content.len()`), not characters — a six-character content
of two-byte characters occupies 12 bytes, exceeds the threshold and is
extracted, refuting the clause that glyph lines whose stripped content
is 10 characters or shorter produce no record. -/
theorem short_char_content_still_extracted :
    "éééééé".length = 6
    ∧ parse_human_readable_todos "s" "Update Todos\n     ☐ éééééé" "t"
      = [⟨"human-s-1", "éééééé", "pending", "medium", "t", some "s"⟩] := by
  exact ⟨rfl, by decide⟩

/-- C7 amended: for every session id, every marker line containing
`"Update Todos"` (newline-free, carrying no box glyph) and all clean
contents (trimmed, non-empty, newline-free, free of the glyph-space and
five-space patterns), a chunk of the marker line followed by two glyph
lines `whitespace ++ "☐ " ++ content` with both contents longer than 10
UTF-8 bytes yields exactly two todos with status `pending`, priority
`medium`, the contents as written, and ids `human-<session_id>-1` and
`human-<session_id>-2`; a chunk whose single glyph line has content of
at most 10 bytes yields no record.  The threshold counts bytes, not
characters. -/
theorem human_readable_extraction
    (sid now marker wsp1 wsp2 c1 c2 c3 : String)
    (hm : containsS marker "Update Todos" = true)
    (hmg : containsS (trimS marker) "☐ " = false)
    (hmn : '\n' ∉ marker.data)
    (hw1 : wsp1.data.all isWsChar = true) (hn1 : '\n' ∉ wsp1.data)
    (hw2 : wsp2.data.all isWsChar = true) (hn2 : '\n' ∉ wsp2.data)
    (he1 : c1 ≠ "") (ht1 : trimS c1 = c1) (hg1 : containsS c1 "☐ " = false)
    (h51 : containsS c1 "     " = false) (hb1 : '\n' ∉ c1.data)
    (hlen1 : utf8Len c1 > 10)
    (he2 : c2 ≠ "") (ht2 : trimS c2 = c2) (hg2 : containsS c2 "☐ " = false)
    (h52 : containsS c2 "     " = false) (hb2 : '\n' ∉ c2.data)
    (hlen2 : utf8Len c2 > 10)
    (he3 : c3 ≠ "") (ht3 : trimS c3 = c3) (hg3 : containsS c3 "☐ " = false)
    (h53 : containsS c3 "     " = false) (hb3 : '\n' ∉ c3.data)
    (hlen3 : utf8Len c3 ≤ 10) :
    parse_human_readable_todos sid
        (marker ++ "\n" ++ (wsp1 ++ "☐ " ++ c1) ++ "\n" ++ (wsp2 ++ "☐ " ++ c2)) now
      = [{ id := "human-" ++ sid ++ "-" ++ Nat.repr 1, content := c1,
           status := "pending", priority := "medium", created_at := now,
           session_id := some sid },
         { id := "human-" ++ sid ++ "-" ++ Nat.repr 2, content := c2,
           status := "pending", priority := "medium", created_at := now,
           session_id := some sid }]
      ∧ parse_human_readable_todos sid (marker ++ "\n" ++ (wsp1 ++ "☐ " ++ c3)) now
        = [] :=
  ⟨human_general sid now marker wsp1 wsp2 c1 c2 hm hmg hmn hw1 hn1 hw2 hn2
      he1 ht1 hg1 h51 hb1 hlen1 he2 ht2 hg2 h52 hb2 hlen2,
   human_short sid now marker wsp1 c3 hm hmg hmn hw1 hn1
      he3 ht3 hg3 h53 hb3 hlen3⟩

/-- C7 witness for `human_readable_extraction` on a concrete marker and
concrete contents. -/
theorem human_readable_extraction_witness :
    parse_human_readable_todos "s"
        ("⏺ Update Todos" ++ "\n" ++ ("     " ++ "☐ " ++ "Implement the checker module")
          ++ "\n" ++ ("     " ++ "☐ " ++ "Write integration tests!!")) "t"
      = [⟨"human-s-1", "Implement the checker module", "pending", "medium", "t", some "s"⟩,
         ⟨"human-s-2", "Write integration tests!!", "pending", "medium", "t", some "s"⟩]
    ∧ parse_human_readable_todos "s"
        ("⏺ Update Todos" ++ "\n" ++ ("     " ++ "☐ " ++ "0123456789")) "t" = [] := by
  have h := human_readable_extraction "s" "t" "⏺ Update Todos" "     " "     "
    "Implement the checker module" "Write integration tests!!" "0123456789"
    (by decide) (by decide) (by decide) (by decide) (by decide) (by decide) (by decide)
    (by decide) (by decide) (by decide) (by decide) (by decide) (by decide)
    (by decide) (by decide) (by decide) (by decide) (by decide) (by decide)
    (by decide) (by decide) (by decide) (by decide) (by decide) (by decide)
  constructor
  · rw [h.1]
    decide
  · exact h.2

end ClaudeGui
